import Mathlib

/-!
Verification of the consul-k8s endpoints reconciliation spec and of the
Cluster custom-resource code (api/v1alpha1/cluster_types.go).

The reconciliation engine itself (EndpointsController.Reconcile and its
helpers) ships outside the files available here: only its tests
(TestReconcileCreateEndpointWithNamespaces, TestReconcileUpdateEndpointWithNamespaces,
TestReconcileDeleteEndpointWithNamespaces, TestConsulNamespace) are present.
The engine is therefore modelled from the specification (spec.md sections 3,
4.1, 4.3, 7, 8); each such definition carries a doc comment starting
"Modelled from the spec:". The Cluster CRD helpers (ToConsul, MatchesConsul,
AddFinalizer, RemoveFinalizer, ClusterWebhook.Handle) are translated directly
from the Go source in src/api/v1alpha1.
-/

namespace ConsulK8s

/-- Modelled from the spec: a mesh agent is addressed by a handle; we use its
name as identity (spec section 4.2, Agent Locator). -/
abbrev AgentId := String

/-- Modelled from the spec: "Owner metadata: structured tags on a mesh
instance identifying the orchestration-layer object that created it"
(glossary; spec section 9 asks for an explicit structured owner-key type).
The key of a reconciliation pass is the endpoints object's namespace/name. -/
structure OwnerKey where
  name : String
  nspace : String
deriving DecidableEq, Repr

/-- Modelled from the spec: the two kinds of service instance — "the primary
instance and its co-located sidecar-proxy instance" (spec section 3). -/
inductive InstanceKind
  | primary
  | sidecarProxy
deriving DecidableEq, Repr

/-- Modelled from the spec: a ServiceInstance (spec section 3): identity is
the ServiceID; attributes are the logical service name, network address,
port, tags, owner metadata, and — for sidecar-proxy instances — a
back-reference to the primary's ID (empty on primaries). -/
structure ServiceInstance where
  kind : InstanceKind
  serviceID : String
  serviceName : String
  address : String
  port : Nat
  tags : List String
  owner : OwnerKey
  destinationServiceID : String
deriving DecidableEq, Repr

/-- Modelled from the spec: the fixed proxy port of sidecar-proxy instances
(spec section 3, "port fixed to a proxy port"; the tests pin it to 20000). -/
def sidecarProxyPort : Nat := 20000

/-- Modelled from the spec: the ID suffix of a sidecar-proxy instance
(spec section 3, "ID suffixed"; the tests pin the suffix). -/
def sidecarSuffix : String := "-sidecar-proxy"

/-- Modelled from the spec: the sidecar-proxy instance paired with a primary
instance — ID and name suffixed, port fixed to the proxy port, carrying a
back-reference to the primary's ID, same address and owner metadata
(spec section 3). -/
def sidecarFor (inst : ServiceInstance) : ServiceInstance :=
  { kind := InstanceKind.sidecarProxy
    serviceID := inst.serviceID ++ sidecarSuffix
    serviceName := inst.serviceName ++ sidecarSuffix
    address := inst.address
    port := sidecarProxyPort
    tags := inst.tags
    owner := inst.owner
    destinationServiceID := inst.serviceID }

/-- Modelled from the spec: a catalog entry records on which agent an
instance is registered (spec section 3, instances live in the mesh catalog;
registration goes to the agent colocated with the address). -/
structure CatalogEntry where
  agent : AgentId
  inst : ServiceInstance
deriving DecidableEq, Repr

/-- Modelled from the spec: a HealthCheck — "one per instance, a pass/fail
flag ... linked by ID to its instance" (spec section 3) — held against the
agent that registered the instance. -/
structure CheckEntry where
  agent : AgentId
  serviceID : String
  passing : Bool
deriving DecidableEq, Repr

/-- Modelled from the spec: the mesh catalog — the service-mesh control
plane's registry of service instances and health checks (glossary). -/
structure Catalog where
  instances : List CatalogEntry
  checks : List CheckEntry
deriving DecidableEq, Repr

/-- Modelled from the spec: the corrective operations of a diff
(spec section 4.1 step 5). A register carries the primary instance to be
registered against an agent (the paired sidecar-proxy and TTL check ride
along, see applyOp); a deregister carries the primary ServiceID whose pair
is to be removed from an agent. -/
inductive Op
  | register (agent : AgentId) (inst : ServiceInstance)
  | deregister (agent : AgentId) (serviceID : String)
deriving DecidableEq, Repr

/-- The agent an operation is issued against. -/
def agentOf : Op → AgentId
  | Op.register a _ => a
  | Op.deregister a _ => a

/-- The primary ServiceID an operation targets. -/
def opTargetID : Op → String
  | Op.register _ inst => inst.serviceID
  | Op.deregister _ sid => sid

/-- Whether a catalog entry is hit (removed) by an operation on the primary
ID sid: the primary instance with that ID, or the paired sidecar-proxy
instance with the suffixed ID. Register and deregister are "idempotent by
ServiceID" (spec section 5), so removal is keyed by ID and kind. -/
def hitsID (sid : String) (e : CatalogEntry) : Bool :=
  (decide (e.inst.kind = InstanceKind.primary) && decide (e.inst.serviceID = sid)) ||
  (decide (e.inst.kind = InstanceKind.sidecarProxy) && decide (e.inst.serviceID = sid ++ sidecarSuffix))

/-- Which catalog entries an operation removes. A deregister is an
agent-scoped call and removes the pair at that agent only; a register is
keyed by ServiceID (idempotent by ServiceID, spec section 5) and replaces
any prior instance pair with that ID. -/
def hits : Op → CatalogEntry → Bool
  | Op.deregister a sid, e => decide (e.agent = a) && hitsID sid e
  | Op.register _ inst, e => hitsID inst.serviceID e

/-- Modelled from the spec: the effect of one operation on the catalog.
Register adds the primary together with its paired sidecar-proxy against
the same agent and installs the TTL health check initialized passing;
deregister removes the pair and its health check (spec section 4.1 step 5
and the pairing invariant of section 3). -/
def applyOp (c : Catalog) : Op → Catalog
  | Op.register a inst =>
      { instances := c.instances.filter (fun e => !hits (Op.register a inst) e)
                       ++ [⟨a, inst⟩, ⟨a, sidecarFor inst⟩]
        checks := c.checks.filter (fun ch => !decide (ch.serviceID = inst.serviceID))
                       ++ [⟨a, inst.serviceID, true⟩] }
  | Op.deregister a sid =>
      { instances := c.instances.filter (fun e => !hits (Op.deregister a sid) e)
        checks := c.checks.filter (fun ch => !(decide (ch.agent = a) && decide (ch.serviceID = sid))) }

/-- Applying a list of operations in order, all succeeding. -/
def runOps (c : Catalog) (ops : List Op) : Catalog :=
  ops.foldl applyOp c

/-- Modelled from the spec: executing operations against agents of which
some may be unreachable. A call against a failing agent leaves the catalog
unchanged and records the error; processing continues with the remaining
operations (partial-failure isolation, spec section 4.1 step 6 and
section 7(b),(c)). Returns the catalog and the number of failed calls. -/
def execOps (failing : AgentId → Bool) : Catalog → List Op → Catalog × Nat
  | c, [] => (c, 0)
  | c, op :: rest =>
      if failing (agentOf op) then
        let r := execOps failing c rest
        (r.1, r.2 + 1)
      else
        execOps failing (applyOp c op) rest

/-- Modelled from the spec: whether a desired instance matches an observed
one so that re-registration of it is superfluous — same address, port, tags
and metadata (spec section 4.1 step 5; tags compared order-sensitively, spec
section 9). -/
def instanceUnchanged (d o : ServiceInstance) : Bool :=
  decide (d.address = o.address) && decide (d.port = o.port) &&
  decide (d.tags = o.tags) && decide (d.owner = o.owner)

/-- Modelled from the spec: whether the ObservedSet at agent a — the catalog
instances at a whose owner metadata matches the key (spec section 3) —
already holds an unchanged match for the desired instance d (spec section
4.1 step 5, "Matching, unchanged instances are left untouched"). -/
def observedUnchanged (key : OwnerKey) (c : Catalog) (a : AgentId) (d : ServiceInstance) : Bool :=
  c.instances.any (fun e =>
    decide (e.agent = a) && decide (e.inst.kind = InstanceKind.primary) &&
    decide (e.inst.owner = key) && decide (e.inst.serviceID = d.serviceID) &&
    instanceUnchanged d e.inst)

/-- Modelled from the spec: the deregister half of the diff — every observed
owner-matching primary instance whose ServiceID is absent from the
DesiredSet's IDs is deregistered (with its paired sidecar-proxy and check)
against the agent it is registered on (spec section 4.1 step 5; with no
desired IDs this is the deregistration-only path of step 2). -/
def staleOps (key : OwnerKey) (dIDs : List String) (c : Catalog) : List Op :=
  (c.instances.filter (fun e =>
      decide (e.inst.kind = InstanceKind.primary) && decide (e.inst.owner = key) &&
      decide (e.inst.serviceID ∉ dIDs))).map
    (fun e => Op.deregister e.agent e.inst.serviceID)

/-- Modelled from the spec: the register half of the diff, as (agent,
instance) pairs. For each desired instance, the Agent Locator resolves the
mesh agent colocated with its address (spec section 4.2); an instance with
no locatable agent yields no operation and is counted as a registration
failure (spec section 4.1, tie-break policy). A desired instance absent
from the ObservedSet at its agent, or present but with differing
address/port/tags/metadata, is registered; a matching unchanged instance is
left untouched (spec section 4.1 step 5). -/
def registerPairs (locate : String → Option AgentId) (key : OwnerKey)
    (D : List ServiceInstance) (c : Catalog) : List (AgentId × ServiceInstance) :=
  D.filterMap (fun d =>
    match locate d.address with
    | none => none
    | some a => if observedUnchanged key c a d then none else some (a, d))

/-- The register operations of the diff. -/
def registerOps (locate : String → Option AgentId) (key : OwnerKey)
    (D : List ServiceInstance) (c : Catalog) : List Op :=
  (registerPairs locate key D c).map (fun p => Op.register p.1 p.2)

/-- Modelled from the spec: the diff of one reconciliation pass for a key —
the per-agent deregister and register operations of spec section 4.1
step 5, deregistrations first. -/
def reconcileOps (locate : String → Option AgentId) (key : OwnerKey)
    (D : List ServiceInstance) (c : Catalog) : List Op :=
  staleOps key (D.map (fun d => d.serviceID)) c ++ registerOps locate key D c

/-- Modelled from the spec: the number of desired instances with no
locatable agent — "treated as registration failures, not silently dropped"
(spec section 4.1, tie-break policy). -/
def locateFailures (locate : String → Option AgentId) (D : List ServiceInstance) : Nat :=
  (D.filter (fun d => (locate d.address).isNone)).length

/-- Modelled from the spec: the outcome of a pass — success, or a retryable
requeue signal when any sub-operation failed (spec section 4.1 step 6). -/
inductive Outcome
  | success
  | requeue
deriving DecidableEq, Repr

/-- The result of one reconciliation pass: the catalog after applying the
diff, the computed diff, and the aggregated outcome. -/
structure ReconcileResult where
  catalog : Catalog
  ops : List Op
  outcome : Outcome
deriving Repr

/-- Modelled from the spec: one reconciliation pass for a key (spec section
4.1). The input is the DesiredSet built from the endpoints object (step 3;
its construction from pod annotations is outside the claims, which
quantify over the DesiredSet directly), or none when the endpoints object
was not found (step 2): then the deregistration-only path runs, which is
the diff against an empty DesiredSet. Operations are executed against
agents of which some may be failing; errors are recorded and processing
continues, and the pass returns a retryable failure if any sub-operation
failed (step 6). -/
def reconcilePass (locate : String → Option AgentId) (failing : AgentId → Bool)
    (key : OwnerKey) (input : Option (List ServiceInstance)) (c : Catalog) : ReconcileResult :=
  match input with
  | none =>
      let ops := staleOps key [] c
      let r := execOps failing c ops
      ⟨r.1, ops, if r.2 = 0 then Outcome.success else Outcome.requeue⟩
  | some D =>
      let ops := reconcileOps locate key D c
      let r := execOps failing c ops
      ⟨r.1, ops, if r.2 + locateFailures locate D = 0 then Outcome.success else Outcome.requeue⟩

/-- Modelled from the spec: the pairing invariant of spec section 3 — every
primary instance has its paired sidecar-proxy instance registered against
the same agent, and every sidecar-proxy instance is the pair of a primary
registered against the same agent. -/
def wellPaired (c : Catalog) : Prop :=
  (∀ e ∈ c.instances, e.inst.kind = InstanceKind.primary →
     ∃ s ∈ c.instances, s.agent = e.agent ∧ s.inst = sidecarFor e.inst) ∧
  (∀ s ∈ c.instances, s.inst.kind = InstanceKind.sidecarProxy →
     ∃ e ∈ c.instances, e.agent = s.agent ∧ e.inst.kind = InstanceKind.primary ∧
       s.inst = sidecarFor e.inst)

/-- The one-sided pairing hypothesis used by the deletion-completeness
claim: every sidecar-proxy instance is paired with a primary on its agent. -/
def sidecarsPaired (c : Catalog) : Prop :=
  ∀ s ∈ c.instances, s.inst.kind = InstanceKind.sidecarProxy →
    ∃ e ∈ c.instances, e.agent = s.agent ∧ e.inst.kind = InstanceKind.primary ∧
      s.inst = sidecarFor e.inst

/-- Operations a reconciliation pass can issue: registers carry primary
instances only. -/
def validOp : Op → Prop
  | Op.register _ inst => inst.kind = InstanceKind.primary
  | Op.deregister _ _ => True

/-- Concrete owner key used by the witnesses: the endpoints object
service-created in namespace default, as in the tests. -/
def exKey : OwnerKey := ⟨"service-created", "default"⟩

/-- Concrete desired primary instance (pod1) used by the witnesses. -/
def exPod1 : ServiceInstance :=
  ⟨InstanceKind.primary, "pod1-service-created", "service-created", "1.2.3.4", 0, [], exKey, ""⟩

/-- Concrete desired primary instance (pod2) used by the witnesses. -/
def exPod2 : ServiceInstance :=
  ⟨InstanceKind.primary, "pod2-service-created", "service-created", "2.2.3.4", 0, [], exKey, ""⟩

/-- Concrete stale primary instance (a pod no longer backing the service)
used by the witnesses. -/
def exStale : ServiceInstance :=
  ⟨InstanceKind.primary, "pod9-service-created", "service-created", "9.9.9.9", 0, [], exKey, ""⟩

/-- Concrete agent locator used by the witnesses: pod1's address lives on
agentA, every other address on agentB. -/
def exLocate : String → Option AgentId :=
  fun addr => if addr = "1.2.3.4" then some "agentA" else some "agentB"

/-- Concrete two-agent catalog used by the witnesses: pod1's pair on
agentA, the stale pod9 pair on agentB. -/
def exCatalog : Catalog :=
  ⟨[⟨"agentA", exPod1⟩, ⟨"agentA", sidecarFor exPod1⟩,
    ⟨"agentB", exStale⟩, ⟨"agentB", sidecarFor exStale⟩], []⟩

/-- Concrete catalog used by the witnesses that holds only the stale pod9
pair on agentB. -/
def exCatalogStale : Catalog :=
  ⟨[⟨"agentB", exStale⟩, ⟨"agentB", sidecarFor exStale⟩], []⟩

/-- Modelled from the spec: the Namespace Policy Resolver's destination
mapping, a pure function of (mirroring-enabled, prefix, static-destination,
source namespace): "When mirroring enabled, destination = prefix + source;
else destination = configured static namespace" (spec section 4.3). The
resolver implementation is not among the source files here; only
TestConsulNamespace is. -/
def consulNamespace (mirroringEnabled : Bool) (pfx : String)
    (destination : String) (sourceNS : String) : String :=
  if mirroringEnabled then pfx ++ sourceNS else destination

/-! ## The Cluster custom resource (src/api/v1alpha1/cluster_types.go) -/

/-- Constant common.Cluster from src/api/common/common.go. -/
def commonClusterName : String := "cluster"

/-- Constant common.SourceKey from src/api/common/common.go. -/
def sourceKey : String := "external-source"

/-- Constant common.SourceValue from src/api/common/common.go. -/
def sourceValue : String := "kubernetes"

/-- Constant common.DatacenterKey from src/api/common/common.go. -/
def datacenterKey : String := "consul.hashicorp.com/source-datacenter"

/-- The Consul config-entry kind returned by Cluster.ConsulKind (the
constant capi.ClusterConfig of the Consul API library; its exact string is
irrelevant to the claims). -/
def clusterConfigKind : String := "cluster"

/-- The meta helper used by ToConsul: the source and datacenter markers
stamped on config entries written to Consul (keys from
src/api/common/common.go; the helper itself lives next to the CRD types). -/
def metaFor (datacenter : String) : List (String × String) :=
  [(sourceKey, sourceValue), (datacenterKey, datacenter)]

/-- TransparentProxyClusterConfig of the CRD (cluster_types.go). -/
structure TransparentProxyClusterConfig where
  catalogDestinationsOnly : Bool
deriving DecidableEq, Repr

/-- capi.TransparentProxyClusterConfig of the Consul API. -/
structure CApiTransparentProxyConfig where
  catalogDestinationsOnly : Bool
deriving DecidableEq, Repr

/-- TransparentProxyClusterConfig.toConsul (cluster_types.go). -/
def TransparentProxyClusterConfig.toConsul (t : TransparentProxyClusterConfig) :
    CApiTransparentProxyConfig :=
  { catalogDestinationsOnly := t.catalogDestinationsOnly }

/-- The fields of a capi.ClusterConfigEntry (Consul API). ToConsul leaves
Namespace, CreateIndex and ModifyIndex at their zero values. -/
structure ClusterConfigEntryData where
  kind : String
  name : String
  transparentProxy : CApiTransparentProxyConfig
  nspace : String
  meta : List (String × String)
  createIndex : Nat
  modifyIndex : Nat
deriving DecidableEq, Repr

/-- A capi.ConfigEntry value: either a ClusterConfigEntry or a config entry
of some other concrete type (a ServiceConfigEntry stands in for these, as
in TestCluster_MatchesConsul). -/
inductive ConfigEntry
  | clusterConfigEntry (data : ClusterConfigEntryData)
  | serviceConfigEntry (kind : String) (name : String)
deriving DecidableEq, Repr

/-- Whether a candidate config entry is a ClusterConfigEntry (the type
assertion at the top of MatchesConsul). -/
def ConfigEntry.isClusterConfigEntry : ConfigEntry → Bool
  | ConfigEntry.clusterConfigEntry _ => true
  | ConfigEntry.serviceConfigEntry _ _ => false

/-- A Condition of the CRD Status (status.go, as exercised by
SetSyncedCondition). -/
structure Condition where
  ctype : String
  cstatus : String
  reason : String
  message : String
deriving DecidableEq, Repr

/-- The CRD Status: conditions and last-synced time. -/
structure Status where
  conditions : List Condition
  lastSyncedTime : Option Nat
deriving DecidableEq, Repr

/-- The metav1.ObjectMeta fields the Cluster code touches: name, namespace
and the finalizer list. -/
structure ObjectMeta where
  name : String
  nspace : String
  finalizers : List String
deriving DecidableEq, Repr

/-- ClusterSpec (cluster_types.go). -/
structure ClusterSpec where
  transparentProxy : TransparentProxyClusterConfig
deriving DecidableEq, Repr

/-- The Cluster custom resource (cluster_types.go). -/
structure Cluster where
  objectMeta : ObjectMeta
  spec : ClusterSpec
  status : Status
deriving DecidableEq, Repr

/-- Cluster.Finalizers (cluster_types.go). -/
def Cluster.finalizerList (c : Cluster) : List String :=
  c.objectMeta.finalizers

/-- Cluster.AddFinalizer (cluster_types.go): appends the name to the
finalizer list. -/
def Cluster.addFinalizer (c : Cluster) (name : String) : Cluster :=
  { c with objectMeta := { c.objectMeta with finalizers := c.finalizerList ++ [name] } }

/-- Cluster.RemoveFinalizer (cluster_types.go): rebuilds the finalizer list
keeping, in order, every entry different from the name. -/
def Cluster.removeFinalizer (c : Cluster) (name : String) : Cluster :=
  { c with objectMeta :=
      { c.objectMeta with finalizers := c.finalizerList.filter (fun f => decide (f ≠ name)) } }

/-- Cluster.ConsulKind (cluster_types.go). -/
def Cluster.consulKind (_ : Cluster) : String := clusterConfigKind

/-- Cluster.ConsulName (cluster_types.go). -/
def Cluster.consulName (c : Cluster) : String := c.objectMeta.name

/-- Cluster.KubernetesName (cluster_types.go). -/
def Cluster.kubernetesName (c : Cluster) : String := c.objectMeta.name

/-- Cluster.KubeKind (cluster_types.go). -/
def Cluster.kubeKind (_ : Cluster) : String := commonClusterName

/-- Cluster.ToConsul (cluster_types.go): builds the ClusterConfigEntry with
the CRD's kind, name and transparent-proxy config and the source/datacenter
meta; Namespace, CreateIndex and ModifyIndex stay at their zero values. -/
def Cluster.toConsul (c : Cluster) (datacenter : String) : ConfigEntry :=
  ConfigEntry.clusterConfigEntry
    { kind := c.consulKind
      name := c.consulName
      transparentProxy := c.spec.transparentProxy.toConsul
      nspace := ""
      meta := metaFor datacenter
      createIndex := 0
      modifyIndex := 0 }

/-- The comparison inside MatchesConsul: cmp.Equal on ClusterConfigEntry
ignoring the Namespace, Meta, ModifyIndex and CreateIndex fields
(cluster_types.go). -/
def clusterEntryMatches (x y : ClusterConfigEntryData) : Bool :=
  decide (x.kind = y.kind) && decide (x.name = y.name) &&
  decide (x.transparentProxy = y.transparentProxy)

/-- Cluster.MatchesConsul (cluster_types.go): false unless the candidate is
a ClusterConfigEntry; otherwise compares ToConsul("") with the candidate,
ignoring Namespace, Meta, ModifyIndex and CreateIndex. -/
def Cluster.matchesConsul (c : Cluster) (candidate : ConfigEntry) : Bool :=
  match candidate with
  | ConfigEntry.clusterConfigEntry d =>
      match c.toConsul "" with
      | ConfigEntry.clusterConfigEntry mine => clusterEntryMatches mine d
      | ConfigEntry.serviceConfigEntry _ _ => false
  | ConfigEntry.serviceConfigEntry _ _ => false

/-! ## The Cluster admission webhook (src/api/v1alpha1/cluster_types.go,
ClusterWebhook.Handle) -/

/-- The admission operations of the Kubernetes admission API. -/
inductive AdmissionOperation
  | create
  | update
  | delete
  | connect
deriving DecidableEq, Repr

/-- An admission response: allowed with a message, or errored with an HTTP
code and message (admission.Allowed / admission.Errored). -/
inductive AdmissionResponse
  | allowed (message : String)
  | errored (code : Nat) (message : String)
deriving DecidableEq, Repr

/-- Whether a response allows the request. -/
def AdmissionResponse.isAllowed : AdmissionResponse → Bool
  | AdmissionResponse.allowed _ => true
  | AdmissionResponse.errored _ _ => false

/-- ClusterWebhook.Handle (cluster_types.go). The decoder's outcome and the
client's List outcome are passed in: decode failure returns 400; on a
Create operation the resource name must equal common.Cluster (else 400),
the existing Cluster list is fetched (a failing List returns 500), and a
non-empty list returns 400 since only one cluster entry is supported; every
other path, including every non-Create operation, is allowed. -/
def clusterWebhookHandle (decodeResult : Except String Cluster)
    (operation : AdmissionOperation)
    (listResult : Except String (List Cluster)) : AdmissionResponse :=
  match decodeResult with
  | Except.error e => AdmissionResponse.errored 400 e
  | Except.ok cluster =>
      if operation = AdmissionOperation.create then
        if cluster.kubernetesName ≠ commonClusterName then
          AdmissionResponse.errored 400
            (cluster.kubeKind ++ " resource name must be \"" ++ commonClusterName ++ "\"")
        else
          match listResult with
          | Except.error e => AdmissionResponse.errored 500 e
          | Except.ok items =>
              if items.length > 0 then
                AdmissionResponse.errored 400
                  (cluster.kubeKind ++ " resource already defined - only one cluster entry is supported")
              else
                AdmissionResponse.allowed ("valid " ++ cluster.kubeKind ++ " request")
      else
        AdmissionResponse.allowed ("valid " ++ cluster.kubeKind ++ " request")

/-! ## Lemmas about the reconciliation model -/

theorem append_sidecarSuffix_inj {a b : String}
    (h : a ++ sidecarSuffix = b ++ sidecarSuffix) : a = b := by
  cases a with | mk da =>
  cases b with | mk db =>
  cases hs : sidecarSuffix with | mk ds =>
  rw [hs] at h
  have h' : da ++ ds = db ++ ds := by
    have := congrArg String.data h
    simpa using this
  exact congrArg String.mk (List.append_cancel_right h')

theorem hits_register_iff {a : AgentId} {i : ServiceInstance} {e : CatalogEntry} :
    hits (Op.register a i) e = true ↔
      (e.inst.kind = InstanceKind.primary ∧ e.inst.serviceID = i.serviceID) ∨
      (e.inst.kind = InstanceKind.sidecarProxy ∧
        e.inst.serviceID = i.serviceID ++ sidecarSuffix) := by
  simp [hits, hitsID]

theorem hits_deregister_iff {a : AgentId} {sid : String} {e : CatalogEntry} :
    hits (Op.deregister a sid) e = true ↔
      e.agent = a ∧
      ((e.inst.kind = InstanceKind.primary ∧ e.inst.serviceID = sid) ∨
       (e.inst.kind = InstanceKind.sidecarProxy ∧
         e.inst.serviceID = sid ++ sidecarSuffix)) := by
  simp [hits, hitsID]

theorem mem_applyOp_register {c : Catalog} {a : AgentId} {i : ServiceInstance}
    {e : CatalogEntry} :
    e ∈ (applyOp c (Op.register a i)).instances ↔
      (e ∈ c.instances ∧ hits (Op.register a i) e = false) ∨
      e = ⟨a, i⟩ ∨ e = ⟨a, sidecarFor i⟩ := by
  simp [applyOp, List.mem_filter, List.mem_append, Bool.not_eq_true', or_assoc]

theorem mem_applyOp_deregister {c : Catalog} {a : AgentId} {sid : String}
    {e : CatalogEntry} :
    e ∈ (applyOp c (Op.deregister a sid)).instances ↔
      e ∈ c.instances ∧ hits (Op.deregister a sid) e = false := by
  simp [applyOp, List.mem_filter, Bool.not_eq_true']

theorem runOps_cons (c : Catalog) (op : Op) (ops : List Op) :
    runOps c (op :: ops) = runOps (applyOp c op) ops := rfl

theorem runOps_append (c : Catalog) (l1 l2 : List Op) :
    runOps c (l1 ++ l2) = runOps (runOps c l1) l2 :=
  List.foldl_append _ _ _ _

theorem mem_runOps_deregs {L : List Op}
    (hL : ∀ op ∈ L, ∃ a sid, op = Op.deregister a sid) :
    ∀ {c : Catalog} {e : CatalogEntry},
      e ∈ (runOps c L).instances ↔
        e ∈ c.instances ∧ ∀ op ∈ L, hits op e = false := by
  induction L with
  | nil => intro c e; simp [runOps]
  | cons op rest ih =>
    intro c e
    obtain ⟨a, sid, rfl⟩ := hL op (List.mem_cons_self _ _)
    rw [runOps_cons, ih (fun o ho => hL o (List.mem_cons_of_mem _ ho)),
      mem_applyOp_deregister]
    constructor
    · rintro ⟨⟨he, hh⟩, hrest⟩
      refine ⟨he, fun o ho => ?_⟩
      rcases List.mem_cons.mp ho with h | h
      · exact h ▸ hh
      · exact hrest o h
    · rintro ⟨he, hall⟩
      exact ⟨⟨he, hall _ (List.mem_cons_self _ _)⟩,
        fun o ho => hall o (List.mem_cons_of_mem _ ho)⟩

theorem mem_runOps_of_unhit {L : List Op} :
    ∀ {c : Catalog} {e : CatalogEntry}, e ∈ c.instances →
      (∀ op ∈ L, hits op e = false) → e ∈ (runOps c L).instances := by
  induction L with
  | nil => intro c e he _; exact he
  | cons op rest ih =>
    intro c e he hh
    rw [runOps_cons]
    refine ih ?_ (fun o ho => hh o (List.mem_cons_of_mem _ ho))
    cases op with
    | register a i =>
        exact mem_applyOp_register.mpr (Or.inl ⟨he, hh _ (List.mem_cons_self _ _)⟩)
    | deregister a sid =>
        exact mem_applyOp_deregister.mpr ⟨he, hh _ (List.mem_cons_self _ _)⟩

theorem mem_runOps_regs {ps : List (AgentId × ServiceInstance)}
    (hnd : (ps.map (fun p => p.2.serviceID)).Nodup)
    (hk : ∀ p ∈ ps, p.2.kind = InstanceKind.primary) :
    ∀ {c : Catalog} {e : CatalogEntry},
      e ∈ (runOps c (ps.map (fun p => Op.register p.1 p.2))).instances ↔
        (e ∈ c.instances ∧ ∀ p ∈ ps, hits (Op.register p.1 p.2) e = false) ∨
        (∃ p ∈ ps, e = ⟨p.1, p.2⟩ ∨ e = ⟨p.1, sidecarFor p.2⟩) := by
  induction ps with
  | nil => intro c e; simp [runOps]
  | cons p rest ih =>
    intro c e
    have hndr : (rest.map (fun q => q.2.serviceID)).Nodup :=
      (List.nodup_cons.mp hnd).2
    have hhead : p.2.serviceID ∉ rest.map (fun q => q.2.serviceID) :=
      (List.nodup_cons.mp hnd).1
    have hkr : ∀ q ∈ rest, q.2.kind = InstanceKind.primary :=
      fun q hq => hk q (List.mem_cons_of_mem _ hq)
    have hkp : p.2.kind = InstanceKind.primary := hk p (List.mem_cons_self _ _)
    have hsurv1 : ∀ q ∈ rest, hits (Op.register q.1 q.2) (⟨p.1, p.2⟩ : CatalogEntry) = false := by
      intro q hq
      rw [Bool.eq_false_iff]
      intro habs
      rcases hits_register_iff.mp habs with ⟨_, hid⟩ | ⟨hkind, _⟩
      · exact hhead (hid ▸ List.mem_map_of_mem (fun q => q.2.serviceID) hq)
      · rw [hkp] at hkind; cases hkind
    have hsurv2 : ∀ q ∈ rest,
        hits (Op.register q.1 q.2) (⟨p.1, sidecarFor p.2⟩ : CatalogEntry) = false := by
      intro q hq
      rw [Bool.eq_false_iff]
      intro habs
      rcases hits_register_iff.mp habs with ⟨hkind, _⟩ | ⟨_, hid⟩
      · simp [sidecarFor] at hkind
      · have : p.2.serviceID = q.2.serviceID :=
          append_sidecarSuffix_inj (by simpa [sidecarFor] using hid)
        exact hhead (this ▸ List.mem_map_of_mem (fun q => q.2.serviceID) hq)
    rw [List.map_cons, runOps_cons, ih hndr hkr]
    constructor
    · rintro (⟨hmem, hrest⟩ | ⟨q, hq, hqe⟩)
      · rcases mem_applyOp_register.mp hmem with ⟨he, hh⟩ | he | he
        · refine Or.inl ⟨he, fun q hq => ?_⟩
          rcases List.mem_cons.mp hq with h | h
          · exact h ▸ hh
          · exact hrest q h
        · exact Or.inr ⟨p, List.mem_cons_self _ _, Or.inl he⟩
        · exact Or.inr ⟨p, List.mem_cons_self _ _, Or.inr he⟩
      · exact Or.inr ⟨q, List.mem_cons_of_mem _ hq, hqe⟩
    · rintro (⟨he, hall⟩ | ⟨q, hq, hqe⟩)
      · refine Or.inl ⟨mem_applyOp_register.mpr
          (Or.inl ⟨he, hall _ (List.mem_cons_self _ _)⟩),
          fun q hq => hall q (List.mem_cons_of_mem _ hq)⟩
      · rcases List.mem_cons.mp hq with h | h
        · subst h
          rcases hqe with rfl | rfl
          · exact Or.inl ⟨mem_applyOp_register.mpr (Or.inr (Or.inl rfl)), hsurv1⟩
          · exact Or.inl ⟨mem_applyOp_register.mpr (Or.inr (Or.inr rfl)), hsurv2⟩
        · exact Or.inr ⟨q, h, hqe⟩

theorem execOps_eq (failing : AgentId → Bool) :
    ∀ (c : Catalog) (L : List Op),
      execOps failing c L =
        (runOps c (L.filter (fun op => !failing (agentOf op))),
         (L.filter (fun op => failing (agentOf op))).length) := by
  intro c L
  induction L generalizing c with
  | nil => rfl
  | cons op rest ih =>
    by_cases h : failing (agentOf op)
    · simp [execOps, h, ih, List.filter_cons]
    · simp [execOps, h, ih, List.filter_cons, runOps_cons]

theorem execOps_noFail (c : Catalog) (L : List Op) :
    execOps (fun _ => false) c L = (runOps c L, 0) := by
  rw [execOps_eq]
  simp

theorem observedUnchanged_iff {key : OwnerKey} {c : Catalog} {a : AgentId}
    {d : ServiceInstance} :
    observedUnchanged key c a d = true ↔
      ∃ e ∈ c.instances, e.agent = a ∧ e.inst.kind = InstanceKind.primary ∧
        e.inst.owner = key ∧ e.inst.serviceID = d.serviceID ∧
        instanceUnchanged d e.inst = true := by
  simp [observedUnchanged, List.any_eq_true, and_assoc]

theorem instanceUnchanged_self (d : ServiceInstance) : instanceUnchanged d d = true := by
  simp [instanceUnchanged]

theorem mem_staleOps_iff {key : OwnerKey} {dIDs : List String} {c : Catalog} {op : Op} :
    op ∈ staleOps key dIDs c ↔
      ∃ e ∈ c.instances, e.inst.kind = InstanceKind.primary ∧ e.inst.owner = key ∧
        e.inst.serviceID ∉ dIDs ∧ op = Op.deregister e.agent e.inst.serviceID := by
  constructor
  · intro h
    obtain ⟨e, he, rfl⟩ := List.mem_map.mp h
    have h2 := List.mem_filter.mp he
    simp only [Bool.and_eq_true, decide_eq_true_eq] at h2
    exact ⟨e, h2.1, h2.2.1.1, h2.2.1.2, h2.2.2, rfl⟩
  · rintro ⟨e, he, h1, h2, h3, rfl⟩
    refine List.mem_map.mpr ⟨e, ?_, rfl⟩
    refine List.mem_filter.mpr ⟨he, ?_⟩
    simp [h1, h2, h3]

theorem registerPairs_shape {locate : String → Option AgentId} {key : OwnerKey}
    {D : List ServiceInstance} {c : Catalog} {p : AgentId × ServiceInstance}
    (hp : p ∈ registerPairs locate key D c) :
    p.2 ∈ D ∧ locate p.2.address = some p.1 ∧
      observedUnchanged key c p.1 p.2 = false := by
  obtain ⟨d, hd, hf⟩ := List.mem_filterMap.mp hp
  rcases hl : locate d.address with _ | a
  · rw [hl] at hf; simp at hf
  · rw [hl] at hf
    by_cases ho : observedUnchanged key c a d
    · simp [ho] at hf
    · simp [ho] at hf
      rcases hf with ⟨rfl, rfl⟩
      exact ⟨hd, hl, Bool.eq_false_iff.mpr ho⟩

theorem registerPairs_none {locate : String → Option AgentId} {key : OwnerKey}
    {D : List ServiceInstance} {c : Catalog} {d : ServiceInstance} {a : AgentId}
    (hl : locate d.address = some a) (ho : observedUnchanged key c a d = true)
    (hnd : (D.map (fun x => x.serviceID)).Nodup) :
    ∀ p ∈ registerPairs locate key D c, p.2.serviceID ≠ d.serviceID ∨ d ∉ D := by
  intro p hp
  by_cases hdD : d ∈ D
  · left
    intro hid
    obtain ⟨hpD, hpl, hpo⟩ := registerPairs_shape hp
    have : p.2 = d := List.inj_on_of_nodup_map hnd hpD hdD hid
    rw [this, hl] at hpl
    have ha : a = p.1 := by injection hpl
    rw [this] at hpo
    rw [← ha] at hpo
    rw [ho] at hpo
    cases hpo
  · right; exact hdD

theorem registerPairs_map_snd_sublist (locate : String → Option AgentId)
    (key : OwnerKey) (D : List ServiceInstance) (c : Catalog) :
    ((registerPairs locate key D c).map (fun p => p.2)).Sublist D := by
  induction D with
  | nil => simp [registerPairs]
  | cons d rest ih =>
    rw [registerPairs, List.filterMap_cons]
    rcases hl : locate d.address with _ | a
    · exact (ih : _).cons d
    · by_cases ho : observedUnchanged key c a d
      · simp only [ho, if_true]
        exact (ih : _).cons d
      · simp only [ho, if_false, List.map_cons]
        exact (ih : _).cons₂ d

theorem registerPairs_ids_nodup {locate : String → Option AgentId} {key : OwnerKey}
    {D : List ServiceInstance} {c : Catalog}
    (hnd : (D.map (fun d => d.serviceID)).Nodup) :
    ((registerPairs locate key D c).map (fun p => p.2.serviceID)).Nodup := by
  have h1 := (registerPairs_map_snd_sublist locate key D c).map (fun d => d.serviceID)
  rw [List.map_map] at h1
  exact hnd.sublist h1

theorem registerPairs_kinds {locate : String → Option AgentId} {key : OwnerKey}
    {D : List ServiceInstance} {c : Catalog}
    (hD : ∀ d ∈ D, d.kind = InstanceKind.primary) :
    ∀ p ∈ registerPairs locate key D c, p.2.kind = InstanceKind.primary :=
  fun p hp => hD p.2 (registerPairs_shape hp).1

theorem mem_registerPairs {locate : String → Option AgentId} {key : OwnerKey}
    {D : List ServiceInstance} {c : Catalog} {d : ServiceInstance} {a : AgentId}
    (hd : d ∈ D) (hl : locate d.address = some a)
    (ho : observedUnchanged key c a d = false) :
    (a, d) ∈ registerPairs locate key D c := by
  refine List.mem_filterMap.mpr ⟨d, hd, ?_⟩
  rw [hl]
  simp [Bool.eq_false_iff.mp ho]

/-! ## Claims about the namespace resolver and the Cluster code -/

/-- Claim C4: namespace resolution is a pure function of
(mirroring-enabled, prefix, static-destination, source namespace): with
mirroring enabled the destination is the prefix concatenated with the
source namespace (prefix "prefix-" and source "default" resolve to
"prefix-default"); with mirroring disabled the destination is the
configured static namespace ("other" resolves to "other" for every
source). -/
theorem c4_namespace_resolution :
    ∀ (pfx dest src : String),
      consulNamespace true pfx dest src = pfx ++ src ∧
      consulNamespace false pfx dest src = dest ∧
      consulNamespace true "prefix-" dest "default" = "prefix-default" ∧
      consulNamespace false pfx "other" src = "other" := by
  intro pfx dest src
  exact ⟨rfl, rfl, rfl, rfl⟩

/-- Claim C8: for every Cluster and datacenter, MatchesConsul accepts the
entry produced by ToConsul (the comparison ignores Namespace, Meta,
ModifyIndex and CreateIndex, so the datacenter stamped into Meta does not
matter), and MatchesConsul rejects every candidate that is not a
ClusterConfigEntry. -/
theorem c8_matches_toConsul :
    ∀ (c : Cluster) (dc : String),
      c.matchesConsul (c.toConsul dc) = true ∧
      ∀ cand : ConfigEntry, cand.isClusterConfigEntry = false →
        c.matchesConsul cand = false := by
  intro c dc
  constructor
  · simp [Cluster.matchesConsul, Cluster.toConsul, clusterEntryMatches]
  · intro cand h
    cases cand with
    | clusterConfigEntry d => simp [ConfigEntry.isClusterConfigEntry] at h
    | serviceConfigEntry k n => rfl

/-- Witness for C8 at a concrete Cluster: the non-ClusterConfigEntry
hypothesis is discharged at a ServiceConfigEntry candidate, as in
TestCluster_MatchesConsul. -/
theorem c8_matches_toConsul_witness :
    (ConfigEntry.serviceConfigEntry "cluster" "cluster").isClusterConfigEntry = false ∧
    Cluster.matchesConsul ⟨⟨"cluster", "default", []⟩, ⟨⟨true⟩⟩, ⟨[], none⟩⟩
      (ConfigEntry.serviceConfigEntry "cluster" "cluster") = false :=
  ⟨by decide,
   (c8_matches_toConsul ⟨⟨"cluster", "default", []⟩, ⟨⟨true⟩⟩, ⟨[], none⟩⟩ "datacenter").2
     (ConfigEntry.serviceConfigEntry "cluster" "cluster") (by decide)⟩

/-- Claim C9: a successfully decoded Create request is disallowed exactly
when the decoded resource's name differs from "cluster" or at least one
Cluster already exists; every successfully decoded non-Create request is
allowed, whatever the client's List would have returned. -/
theorem c9_webhook_handle :
    ∀ (c : Cluster) (items : List Cluster) (op : AdmissionOperation)
      (listR : Except String (List Cluster)),
      ((clusterWebhookHandle (Except.ok c) AdmissionOperation.create
          (Except.ok items)).isAllowed = false ↔
        (c.kubernetesName ≠ commonClusterName ∨ items ≠ [])) ∧
      (op ≠ AdmissionOperation.create →
        clusterWebhookHandle (Except.ok c) op listR =
          AdmissionResponse.allowed ("valid " ++ c.kubeKind ++ " request")) := by
  intro c items op listR
  constructor
  · by_cases hname : c.kubernetesName = commonClusterName
    · by_cases hitems : items = []
      · subst hitems
        simp [clusterWebhookHandle, hname, AdmissionResponse.isAllowed]
      · have hlen : items.length > 0 := by
          cases items with
          | nil => exact absurd rfl hitems
          | cons x xs => simp
        simp [clusterWebhookHandle, hname, hlen, AdmissionResponse.isAllowed, hitems]
    · simp [clusterWebhookHandle, hname, AdmissionResponse.isAllowed]
  · intro hop
    simp [clusterWebhookHandle, hop]

/-- Witness for C9 at concrete inputs: an Update request is allowed even
though the List outcome is an error, and a Create request against an
existing Cluster is disallowed. -/
theorem c9_webhook_handle_witness :
    AdmissionOperation.update ≠ AdmissionOperation.create ∧
    clusterWebhookHandle
      (Except.ok ⟨⟨"cluster", "default", []⟩, ⟨⟨false⟩⟩, ⟨[], none⟩⟩)
      AdmissionOperation.update (Except.error "list failed") =
      AdmissionResponse.allowed ("valid " ++
        Cluster.kubeKind ⟨⟨"cluster", "default", []⟩, ⟨⟨false⟩⟩, ⟨[], none⟩⟩ ++ " request") :=
  ⟨by decide,
   (c9_webhook_handle ⟨⟨"cluster", "default", []⟩, ⟨⟨false⟩⟩, ⟨[], none⟩⟩ []
     AdmissionOperation.update (Except.error "list failed")).2 (by decide)⟩

/-- Claim C10: AddFinalizer appends the name at the end of the finalizer
list leaving the existing entries in place; RemoveFinalizer removes every
occurrence of the name while preserving the relative order of the rest
(the result is a sublist of the original); removing after adding restores
a list that did not contain the name; and neither operation modifies any
other field of the Cluster. -/
theorem c10_finalizers :
    ∀ (c : Cluster) (n : String),
      (c.addFinalizer n).objectMeta.finalizers = c.objectMeta.finalizers ++ [n] ∧
      n ∉ (c.removeFinalizer n).objectMeta.finalizers ∧
      ((c.removeFinalizer n).objectMeta.finalizers).Sublist c.objectMeta.finalizers ∧
      (n ∉ c.objectMeta.finalizers →
        ((c.addFinalizer n).removeFinalizer n).objectMeta.finalizers =
          c.objectMeta.finalizers) ∧
      (c.addFinalizer n).objectMeta.name = c.objectMeta.name ∧
      (c.addFinalizer n).objectMeta.nspace = c.objectMeta.nspace ∧
      (c.addFinalizer n).spec = c.spec ∧
      (c.addFinalizer n).status = c.status ∧
      (c.removeFinalizer n).objectMeta.name = c.objectMeta.name ∧
      (c.removeFinalizer n).objectMeta.nspace = c.objectMeta.nspace ∧
      (c.removeFinalizer n).spec = c.spec ∧
      (c.removeFinalizer n).status = c.status := by
  intro c n
  refine ⟨rfl, ?_, ?_, ?_, rfl, rfl, rfl, rfl, rfl, rfl, rfl, rfl⟩
  · simp [Cluster.removeFinalizer, Cluster.finalizerList, List.mem_filter]
  · exact List.filter_sublist _
  · intro hn
    simp only [Cluster.removeFinalizer, Cluster.addFinalizer, Cluster.finalizerList,
      List.filter_append]
    rw [List.filter_eq_self.mpr, List.filter_cons, List.filter_nil]
    · simp
    · intro a ha
      simp only [decide_eq_true_eq]
      intro hEq
      exact hn (hEq ▸ ha)

/-! ## Pairing: sidecarFor facts and invariant preservation -/

theorem sidecarFor_kind (i : ServiceInstance) :
    (sidecarFor i).kind = InstanceKind.sidecarProxy := rfl

theorem sidecarFor_serviceID (i : ServiceInstance) :
    (sidecarFor i).serviceID = i.serviceID ++ sidecarSuffix := rfl

theorem sidecarFor_owner (i : ServiceInstance) : (sidecarFor i).owner = i.owner := rfl

theorem wellPaired_applyOp {c : Catalog} {op : Op} (hv : validOp op)
    (h : wellPaired c) : wellPaired (applyOp c op) := by
  cases op with
  | deregister a sid =>
    constructor
    · intro e' he' hk
      obtain ⟨he'c, hunhit⟩ := mem_applyOp_deregister.mp he'
      obtain ⟨s, hs, hsa, hsi⟩ := h.1 e' he'c hk
      refine ⟨s, mem_applyOp_deregister.mpr ⟨hs, ?_⟩, hsa, hsi⟩
      rw [Bool.eq_false_iff]
      intro habs
      obtain ⟨hag, hbr⟩ := hits_deregister_iff.mp habs
      rcases hbr with ⟨hks, _⟩ | ⟨_, hid⟩
      · rw [hsi, sidecarFor_kind] at hks
        cases hks
      · rw [hsi, sidecarFor_serviceID] at hid
        have hesid : e'.inst.serviceID = sid := append_sidecarSuffix_inj hid
        have : hits (Op.deregister a sid) e' = true :=
          hits_deregister_iff.mpr ⟨by rw [← hsa]; exact hag, Or.inl ⟨hk, hesid⟩⟩
        rw [hunhit] at this
        cases this
    · intro s' hs' hk
      obtain ⟨hs'c, hunhit⟩ := mem_applyOp_deregister.mp hs'
      obtain ⟨e, he, hea, hek, hsi⟩ := h.2 s' hs'c hk
      refine ⟨e, mem_applyOp_deregister.mpr ⟨he, ?_⟩, hea, hek, hsi⟩
      rw [Bool.eq_false_iff]
      intro habs
      obtain ⟨hag, hbr⟩ := hits_deregister_iff.mp habs
      rcases hbr with ⟨_, hid⟩ | ⟨hks, _⟩
      · have : hits (Op.deregister a sid) s' = true := by
          refine hits_deregister_iff.mpr ⟨by rw [← hea]; exact hag, Or.inr ⟨hk, ?_⟩⟩
          rw [hsi, sidecarFor_serviceID, hid]
        rw [hunhit] at this
        cases this
      · rw [hek] at hks
        cases hks
  | register a i =>
    have hik : i.kind = InstanceKind.primary := hv
    constructor
    · intro e' he' hk
      rcases mem_applyOp_register.mp he' with ⟨he'c, hunhit⟩ | rfl | rfl
      · obtain ⟨s, hs, hsa, hsi⟩ := h.1 e' he'c hk
        refine ⟨s, mem_applyOp_register.mpr (Or.inl ⟨hs, ?_⟩), hsa, hsi⟩
        rw [Bool.eq_false_iff]
        intro habs
        rcases hits_register_iff.mp habs with ⟨hks, _⟩ | ⟨_, hid⟩
        · rw [hsi, sidecarFor_kind] at hks
          cases hks
        · rw [hsi, sidecarFor_serviceID] at hid
          have hesid : e'.inst.serviceID = i.serviceID := append_sidecarSuffix_inj hid
          have : hits (Op.register a i) e' = true :=
            hits_register_iff.mpr (Or.inl ⟨hk, hesid⟩)
          rw [hunhit] at this
          cases this
      · exact ⟨⟨a, sidecarFor i⟩, mem_applyOp_register.mpr (Or.inr (Or.inr rfl)), rfl, rfl⟩
      · rw [sidecarFor_kind] at hk
        cases hk
    · intro s' hs' hk
      rcases mem_applyOp_register.mp hs' with ⟨hs'c, hunhit⟩ | rfl | rfl
      · obtain ⟨e, he, hea, hek, hsi⟩ := h.2 s' hs'c hk
        refine ⟨e, mem_applyOp_register.mpr (Or.inl ⟨he, ?_⟩), hea, hek, hsi⟩
        rw [Bool.eq_false_iff]
        intro habs
        rcases hits_register_iff.mp habs with ⟨_, hid⟩ | ⟨hks, _⟩
        · have : hits (Op.register a i) s' = true := by
            refine hits_register_iff.mpr (Or.inr ⟨hk, ?_⟩)
            rw [hsi, sidecarFor_serviceID, hid]
          rw [hunhit] at this
          cases this
        · rw [hek] at hks
          cases hks
      · rw [hik] at hk
        cases hk
      · exact ⟨⟨a, i⟩, mem_applyOp_register.mpr (Or.inr (Or.inl rfl)), rfl, hik, rfl⟩

theorem wellPaired_runOps {L : List Op} (hL : ∀ op ∈ L, validOp op) :
    ∀ {c : Catalog}, wellPaired c → wellPaired (runOps c L) := by
  induction L with
  | nil => intro c h; exact h
  | cons op rest ih =>
    intro c h
    rw [runOps_cons]
    exact ih (fun o ho => hL o (List.mem_cons_of_mem _ ho))
      (wellPaired_applyOp (hL op (List.mem_cons_self _ _)) h)

theorem staleOps_valid (key : OwnerKey) (dIDs : List String) (c : Catalog) :
    ∀ op ∈ staleOps key dIDs c, validOp op := by
  intro op hop
  obtain ⟨e, _, _, _, _, rfl⟩ := mem_staleOps_iff.mp hop
  trivial

theorem reconcileOps_valid {locate : String → Option AgentId} {key : OwnerKey}
    {D : List ServiceInstance} {c : Catalog}
    (hD : ∀ d ∈ D, d.kind = InstanceKind.primary) :
    ∀ op ∈ reconcileOps locate key D c, validOp op := by
  intro op hop
  rcases List.mem_append.mp hop with h | h
  · exact staleOps_valid _ _ _ op h
  · obtain ⟨p, hp, rfl⟩ := List.mem_map.mp h
    exact registerPairs_kinds hD p hp

/-! ## Convergence: membership in the catalog after a pass -/

theorem staleOps_deregs (key : OwnerKey) (dIDs : List String) (c : Catalog) :
    ∀ op ∈ staleOps key dIDs c, ∃ a sid, op = Op.deregister a sid := by
  intro op hop
  obtain ⟨e, _, _, _, _, rfl⟩ := mem_staleOps_iff.mp hop
  exact ⟨_, _, rfl⟩

theorem final_mem_iff {locate : String → Option AgentId} {key : OwnerKey}
    {D : List ServiceInstance} {c : Catalog}
    (hD : ∀ d ∈ D, d.kind = InstanceKind.primary)
    (hnd : (D.map (fun d => d.serviceID)).Nodup) :
    ∀ {e : CatalogEntry},
      e ∈ (runOps c (reconcileOps locate key D c)).instances ↔
        ((e ∈ c.instances ∧
            ∀ op ∈ staleOps key (D.map (fun d => d.serviceID)) c, hits op e = false) ∧
          ∀ p ∈ registerPairs locate key D c, hits (Op.register p.1 p.2) e = false) ∨
        (∃ p ∈ registerPairs locate key D c,
          e = ⟨p.1, p.2⟩ ∨ e = ⟨p.1, sidecarFor p.2⟩) := by
  intro e
  rw [reconcileOps, runOps_append, registerOps,
    mem_runOps_regs (registerPairs_ids_nodup hnd) (registerPairs_kinds hD),
    mem_runOps_deregs (staleOps_deregs key (D.map (fun d => d.serviceID)) c)]

theorem final_primary_ids {locate : String → Option AgentId} {key : OwnerKey}
    {D : List ServiceInstance} {c : Catalog}
    (hD : ∀ d ∈ D, d.kind = InstanceKind.primary)
    (hnd : (D.map (fun d => d.serviceID)).Nodup) :
    ∀ e ∈ (runOps c (reconcileOps locate key D c)).instances,
      e.inst.owner = key → e.inst.kind = InstanceKind.primary →
      e.inst.serviceID ∈ D.map (fun d => d.serviceID) := by
  intro e he howner hkind
  rcases (final_mem_iff hD hnd).mp he with ⟨⟨hec, hstale⟩, _⟩ | ⟨p, hp, hpe⟩
  · by_contra habs
    have hop : Op.deregister e.agent e.inst.serviceID ∈
        staleOps key (D.map (fun d => d.serviceID)) c :=
      mem_staleOps_iff.mpr ⟨e, hec, hkind, howner, habs, rfl⟩
    have hh := hstale _ hop
    rw [Bool.eq_false_iff] at hh
    exact hh (hits_deregister_iff.mpr ⟨rfl, Or.inl ⟨hkind, rfl⟩⟩)
  · rcases hpe with rfl | rfl
    · exact List.mem_map_of_mem _ (registerPairs_shape hp).1
    · simp [sidecarFor] at hkind

theorem final_sidecar_ids {locate : String → Option AgentId} {key : OwnerKey}
    {D : List ServiceInstance} {c : Catalog}
    (hD : ∀ d ∈ D, d.kind = InstanceKind.primary)
    (hnd : (D.map (fun d => d.serviceID)).Nodup)
    (hwp : wellPaired c) :
    ∀ e ∈ (runOps c (reconcileOps locate key D c)).instances,
      e.inst.owner = key → e.inst.kind = InstanceKind.sidecarProxy →
      ∃ sid ∈ D.map (fun d => d.serviceID), e.inst.serviceID = sid ++ sidecarSuffix := by
  intro e he howner hkind
  rcases (final_mem_iff hD hnd).mp he with ⟨⟨hec, hstale⟩, _⟩ | ⟨p, hp, hpe⟩
  · obtain ⟨p0, hp0c, hp0a, hp0k, hsc⟩ := hwp.2 e hec hkind
    have hp0owner : p0.inst.owner = key := by
      rw [hsc, sidecarFor_owner] at howner
      exact howner
    by_cases hid : p0.inst.serviceID ∈ D.map (fun d => d.serviceID)
    · exact ⟨p0.inst.serviceID, hid, by rw [hsc, sidecarFor_serviceID]⟩
    · exfalso
      have hop : Op.deregister p0.agent p0.inst.serviceID ∈
          staleOps key (D.map (fun d => d.serviceID)) c :=
        mem_staleOps_iff.mpr ⟨p0, hp0c, hp0k, hp0owner, hid, rfl⟩
      have hh := hstale _ hop
      rw [Bool.eq_false_iff] at hh
      refine hh (hits_deregister_iff.mpr ⟨hp0a.symm, Or.inr ⟨hkind, ?_⟩⟩)
      rw [hsc, sidecarFor_serviceID]
  · rcases hpe with rfl | rfl
    · have hpk := registerPairs_kinds hD p hp
      rw [hpk] at hkind
      cases hkind
    · exact ⟨p.2.serviceID, List.mem_map_of_mem _ (registerPairs_shape hp).1, rfl⟩

theorem final_has_unchanged_primary {locate : String → Option AgentId} {key : OwnerKey}
    {D : List ServiceInstance} {c : Catalog}
    (hD : ∀ d ∈ D, d.kind = InstanceKind.primary ∧ d.owner = key)
    (hnd : (D.map (fun d => d.serviceID)).Nodup) :
    ∀ d ∈ D, ∀ a, locate d.address = some a →
      ∃ e ∈ (runOps c (reconcileOps locate key D c)).instances,
        e.agent = a ∧ e.inst.kind = InstanceKind.primary ∧ e.inst.owner = key ∧
        e.inst.serviceID = d.serviceID ∧ instanceUnchanged d e.inst = true := by
  intro d hd a hl
  have hD1 : ∀ x ∈ D, x.kind = InstanceKind.primary := fun x hx => (hD x hx).1
  by_cases ho : observedUnchanged key c a d = true
  · obtain ⟨e0, he0c, he0a, he0k, he0o, he0id, he0u⟩ := observedUnchanged_iff.mp ho
    refine ⟨e0, ?_, he0a, he0k, he0o, he0id, he0u⟩
    refine (final_mem_iff hD1 hnd).mpr (Or.inl ⟨⟨he0c, ?_⟩, ?_⟩)
    · intro op hop
      obtain ⟨e', he'c, _, _, hid', rfl⟩ := mem_staleOps_iff.mp hop
      rw [Bool.eq_false_iff]
      intro habs
      rcases hits_deregister_iff.mp habs with ⟨_, ⟨_, hid⟩ | ⟨hks, _⟩⟩
      · rw [← hid, he0id] at hid'
        exact hid' (List.mem_map_of_mem _ hd)
      · rw [he0k] at hks
        cases hks
    · intro p hp
      rw [Bool.eq_false_iff]
      intro habs
      rcases hits_register_iff.mp habs with ⟨_, hid⟩ | ⟨hks, _⟩
      · rcases registerPairs_none hl ho hnd p hp with hne | hndD
        · exact hne (hid.symm.trans he0id)
        · exact hndD hd
      · rw [he0k] at hks
        cases hks
  · have hpm : (a, d) ∈ registerPairs locate key D c :=
      mem_registerPairs hd hl (Bool.eq_false_iff.mpr ho)
    exact ⟨⟨a, d⟩, (final_mem_iff hD1 hnd).mpr (Or.inr ⟨(a, d), hpm, Or.inl rfl⟩),
      rfl, (hD d hd).1, (hD d hd).2, rfl, instanceUnchanged_self d⟩

theorem final_has_sidecar {locate : String → Option AgentId} {key : OwnerKey}
    {D : List ServiceInstance} {c : Catalog}
    (hD : ∀ d ∈ D, d.kind = InstanceKind.primary ∧ d.owner = key)
    (hnd : (D.map (fun d => d.serviceID)).Nodup)
    (hwp : wellPaired c) :
    ∀ d ∈ D, ∀ a, locate d.address = some a →
      ∃ e ∈ (runOps c (reconcileOps locate key D c)).instances,
        e.inst.kind = InstanceKind.sidecarProxy ∧ e.inst.owner = key ∧
        e.inst.serviceID = d.serviceID ++ sidecarSuffix := by
  intro d hd a hl
  have hD1 : ∀ x ∈ D, x.kind = InstanceKind.primary := fun x hx => (hD x hx).1
  by_cases ho : observedUnchanged key c a d = true
  · obtain ⟨e0, he0c, he0a, he0k, he0o, he0id, he0u⟩ := observedUnchanged_iff.mp ho
    obtain ⟨s, hsc, hsa, hsi⟩ := hwp.1 e0 he0c he0k
    refine ⟨s, ?_, by rw [hsi, sidecarFor_kind],
      by rw [hsi, sidecarFor_owner]; exact he0o,
      by rw [hsi, sidecarFor_serviceID, he0id]⟩
    refine (final_mem_iff hD1 hnd).mpr (Or.inl ⟨⟨hsc, ?_⟩, ?_⟩)
    · intro op hop
      obtain ⟨e', he'c, _, _, hid', rfl⟩ := mem_staleOps_iff.mp hop
      rw [Bool.eq_false_iff]
      intro habs
      rcases hits_deregister_iff.mp habs with ⟨_, ⟨hks, _⟩ | ⟨_, hid⟩⟩
      · rw [hsi, sidecarFor_kind] at hks
        cases hks
      · rw [hsi, sidecarFor_serviceID, he0id] at hid
        rw [← append_sidecarSuffix_inj hid] at hid'
        exact hid' (List.mem_map_of_mem _ hd)
    · intro p hp
      rw [Bool.eq_false_iff]
      intro habs
      rcases hits_register_iff.mp habs with ⟨hks, _⟩ | ⟨_, hid⟩
      · rw [hsi, sidecarFor_kind] at hks
        cases hks
      · rw [hsi, sidecarFor_serviceID, he0id] at hid
        rcases registerPairs_none hl ho hnd p hp with hne | hndD
        · exact hne (append_sidecarSuffix_inj hid).symm
        · exact hndD hd
  · have hpm : (a, d) ∈ registerPairs locate key D c :=
      mem_registerPairs hd hl (Bool.eq_false_iff.mpr ho)
    refine ⟨⟨a, sidecarFor d⟩,
      (final_mem_iff hD1 hnd).mpr (Or.inr ⟨(a, d), hpm, Or.inr rfl⟩),
      rfl, ?_, rfl⟩
    rw [sidecarFor_owner]
    exact (hD d hd).2

/-- Claim C7: the paired sidecar-proxy of a primary instance is unique and
determined (ID suffixed, fixed proxy port, back-reference to the primary's
ID), and since every register and deregister operation applies to the
primary and its sidecar-proxy together against the same agent, every
reconciliation pass — whatever agents fail — preserves the invariant that
no catalog state has a primary without its sidecar-proxy or a
sidecar-proxy without its primary. -/
theorem c7_pairing_invariant :
    (∀ i : ServiceInstance,
        (sidecarFor i).kind = InstanceKind.sidecarProxy ∧
        (sidecarFor i).serviceID = i.serviceID ++ sidecarSuffix ∧
        (sidecarFor i).port = sidecarProxyPort ∧
        (sidecarFor i).destinationServiceID = i.serviceID) ∧
    (∀ (locate : String → Option AgentId) (failing : AgentId → Bool) (key : OwnerKey)
        (input : Option (List ServiceInstance)) (c : Catalog),
        wellPaired c →
        (∀ D, input = some D → ∀ d ∈ D, d.kind = InstanceKind.primary) →
        wellPaired (reconcilePass locate failing key input c).catalog) := by
  constructor
  · intro i
    exact ⟨rfl, rfl, rfl, rfl⟩
  · intro locate failing key input c hwp hin
    cases input with
    | none =>
      have hcat : (reconcilePass locate failing key none c).catalog =
          runOps c ((staleOps key [] c).filter (fun op => !failing (agentOf op))) := by
        simp [reconcilePass, execOps_eq]
      rw [hcat]
      refine wellPaired_runOps ?_ hwp
      intro op hop
      exact staleOps_valid _ _ _ op (List.mem_filter.mp hop).1
    | some D =>
      have hcat : (reconcilePass locate failing key (some D) c).catalog =
          runOps c ((reconcileOps locate key D c).filter (fun op => !failing (agentOf op))) := by
        simp [reconcilePass, execOps_eq]
      rw [hcat]
      refine wellPaired_runOps ?_ hwp
      intro op hop
      exact reconcileOps_valid (hin D rfl) op (List.mem_filter.mp hop).1

/-- Witness for C7: a pass over a well-paired two-agent catalog with two
desired primaries leaves the catalog well paired. -/
theorem c7_pairing_invariant_witness :
    wellPaired exCatalog ∧
    wellPaired (reconcilePass exLocate (fun _ => false) exKey
      (some [exPod1, exPod2]) exCatalog).catalog :=
  ⟨by unfold wellPaired; decide,
   c7_pairing_invariant.2 exLocate (fun _ => false) exKey (some [exPod1, exPod2])
     exCatalog (by unfold wellPaired; decide)
     (fun D hD => by injection hD with h; subst h; decide)⟩

/-- Claim C5: when a register or deregister call against some agent fails,
the operations against the remaining agents are still attempted in order
and complete — the resulting catalog is exactly the one obtained by
applying every operation whose agent does not fail, so already-applied
operations are not undone — and the pass as a whole returns a retryable
failure for the key. -/
theorem c5_partial_failure_isolation :
    ∀ (locate : String → Option AgentId) (failing : AgentId → Bool) (key : OwnerKey)
      (D : List ServiceInstance) (c : Catalog),
      (∃ op ∈ reconcileOps locate key D c, failing (agentOf op) = true) →
      (reconcilePass locate failing key (some D) c).catalog =
        runOps c ((reconcileOps locate key D c).filter (fun op => !failing (agentOf op))) ∧
      (reconcilePass locate failing key (some D) c).outcome = Outcome.requeue := by
  intro locate failing key D c hex
  obtain ⟨op, hop, hfail⟩ := hex
  constructor
  · simp [reconcilePass, execOps_eq]
  · have hmem : op ∈ (reconcileOps locate key D c).filter (fun o => failing (agentOf o)) :=
      List.mem_filter.mpr ⟨hop, hfail⟩
    have hne : ((reconcileOps locate key D c).filter
        (fun o => failing (agentOf o))).length ≠ 0 := by
      intro h0
      rw [List.length_eq_zero] at h0
      rw [h0] at hmem
      cases hmem
    have hout : (reconcilePass locate failing key (some D) c).outcome =
        if ((reconcileOps locate key D c).filter (fun o => failing (agentOf o))).length +
            locateFailures locate D = 0 then Outcome.success else Outcome.requeue := by
      simp [reconcilePass, execOps_eq]
    rw [hout, if_neg (by omega)]

/-- Witness for C5: agentB fails, so its stale deregistration is not
applied and the pass reports a retryable failure, while the registration
against agentA still completes. -/
theorem c5_partial_failure_isolation_witness :
    (∃ op ∈ reconcileOps exLocate exKey [exPod1] exCatalogStale,
        (fun a => decide (a = "agentB")) (agentOf op) = true) ∧
    (reconcilePass exLocate (fun a => decide (a = "agentB")) exKey
        (some [exPod1]) exCatalogStale).catalog =
      runOps exCatalogStale ((reconcileOps exLocate exKey [exPod1] exCatalogStale).filter
        (fun op => !(fun a => decide (a = "agentB")) (agentOf op))) ∧
    (reconcilePass exLocate (fun a => decide (a = "agentB")) exKey
        (some [exPod1]) exCatalogStale).outcome = Outcome.requeue :=
  ⟨by decide,
   c5_partial_failure_isolation exLocate (fun a => decide (a = "agentB")) exKey
     [exPod1] exCatalogStale (by decide)⟩

/-- Claim C3: when the endpoints object is not found, the pass deregisters
every owner-matching instance — primaries and sidecar-proxies — across all
agents (each deregistration is issued against the agent holding the
instance), and returns success. -/
theorem c3_deletion_completeness :
    ∀ (locate : String → Option AgentId) (key : OwnerKey) (c : Catalog),
      sidecarsPaired c →
      (∀ e ∈ (reconcilePass locate (fun _ => false) key none c).catalog.instances,
          e.inst.owner ≠ key) ∧
      (reconcilePass locate (fun _ => false) key none c).outcome = Outcome.success := by
  intro locate key c hpair
  have hops : ∀ op ∈ staleOps key [] c, ∃ a sid, op = Op.deregister a sid := by
    intro op hop
    obtain ⟨e, _, _, _, _, rfl⟩ := mem_staleOps_iff.mp hop
    exact ⟨_, _, rfl⟩
  have hcat : (reconcilePass locate (fun _ => false) key none c).catalog =
      runOps c (staleOps key [] c) := by
    simp [reconcilePass, execOps_noFail]
  constructor
  · intro e he hkey
    rw [hcat] at he
    obtain ⟨hec, hunhit⟩ := (mem_runOps_deregs hops).mp he
    rcases hk : e.inst.kind with _ | _
    · have hop : Op.deregister e.agent e.inst.serviceID ∈ staleOps key [] c :=
        mem_staleOps_iff.mpr ⟨e, hec, hk, hkey, by simp, rfl⟩
      have hht := hunhit _ hop
      rw [Bool.eq_false_iff] at hht
      exact hht (hits_deregister_iff.mpr ⟨rfl, Or.inl ⟨hk, rfl⟩⟩)
    · obtain ⟨p, hpc, hagent, hpk, hsc⟩ := hpair e hec hk
      have hpowner : p.inst.owner = key := by
        rw [hsc, sidecarFor_owner] at hkey
        exact hkey
      have hop : Op.deregister p.agent p.inst.serviceID ∈ staleOps key [] c :=
        mem_staleOps_iff.mpr ⟨p, hpc, hpk, hpowner, by simp, rfl⟩
      have hht := hunhit _ hop
      rw [Bool.eq_false_iff] at hht
      refine hht (hits_deregister_iff.mpr ⟨hagent.symm, Or.inr ⟨hk, ?_⟩⟩)
      rw [hsc, sidecarFor_serviceID]
  · simp [reconcilePass, execOps_noFail]

/-- Witness for C3: deleting an endpoints object whose instances span two
agents empties the catalog of owner-matching instances and succeeds. -/
theorem c3_deletion_completeness_witness :
    sidecarsPaired exCatalog ∧
    (∀ e ∈ (reconcilePass exLocate (fun _ => false) exKey none exCatalog).catalog.instances,
        e.inst.owner ≠ exKey) ∧
    (reconcilePass exLocate (fun _ => false) exKey none exCatalog).outcome =
      Outcome.success :=
  ⟨by unfold sidecarsPaired; decide,
   c3_deletion_completeness exLocate exKey exCatalog (by unfold sidecarsPaired; decide)⟩

/-- Claim C1: convergence — after one failure-free reconciliation pass over
a DesiredSet D of owner-matching primaries with distinct ServiceIDs, all
locatable, against a well-paired catalog, the owner-matching instances of
the resulting catalog are exactly D by ServiceID: every remaining
owner-matching primary carries a ServiceID of D and every remaining
owner-matching sidecar-proxy carries a suffixed ServiceID of D (no extra),
and every instance of D is present, with its sidecar-proxy (no missing). -/
theorem c1_convergence :
    ∀ (locate : String → Option AgentId) (key : OwnerKey) (D : List ServiceInstance)
      (c : Catalog),
      (∀ d ∈ D, d.kind = InstanceKind.primary ∧ d.owner = key) →
      (D.map (fun d => d.serviceID)).Nodup →
      (∀ d ∈ D, (locate d.address).isSome = true) →
      wellPaired c →
      (∀ e ∈ (reconcilePass locate (fun _ => false) key (some D) c).catalog.instances,
          e.inst.owner = key →
          (e.inst.kind = InstanceKind.primary →
            e.inst.serviceID ∈ D.map (fun d => d.serviceID)) ∧
          (e.inst.kind = InstanceKind.sidecarProxy →
            ∃ sid ∈ D.map (fun d => d.serviceID),
              e.inst.serviceID = sid ++ sidecarSuffix)) ∧
      (∀ d ∈ D,
          (∃ e ∈ (reconcilePass locate (fun _ => false) key
              (some D) c).catalog.instances,
            e.inst.kind = InstanceKind.primary ∧ e.inst.owner = key ∧
            e.inst.serviceID = d.serviceID) ∧
          (∃ e ∈ (reconcilePass locate (fun _ => false) key
              (some D) c).catalog.instances,
            e.inst.kind = InstanceKind.sidecarProxy ∧ e.inst.owner = key ∧
            e.inst.serviceID = d.serviceID ++ sidecarSuffix)) := by
  intro locate key D c hD hnd hloc hwp
  have hD1 : ∀ x ∈ D, x.kind = InstanceKind.primary := fun x hx => (hD x hx).1
  have hcat : (reconcilePass locate (fun _ => false) key (some D) c).catalog =
      runOps c (reconcileOps locate key D c) := by
    simp [reconcilePass, execOps_noFail]
  rw [hcat]
  constructor
  · intro e he howner
    exact ⟨fun hk => final_primary_ids hD1 hnd e he howner hk,
           fun hk => final_sidecar_ids hD1 hnd hwp e he howner hk⟩
  · intro d hd
    obtain ⟨a, hl⟩ := Option.isSome_iff_exists.mp (hloc d hd)
    constructor
    · obtain ⟨e, he, _, hek, heo, heid, _⟩ :=
        final_has_unchanged_primary hD hnd d hd a hl
      exact ⟨e, he, hek, heo, heid⟩
    · exact final_has_sidecar hD hnd hwp d hd a hl

/-- Witness for C1: a pass with two desired primaries over a catalog that
already holds pod1's pair on agentA and a stale pod9 pair on agentB. -/
theorem c1_convergence_witness :
    (∀ d ∈ [exPod1, exPod2], d.kind = InstanceKind.primary ∧ d.owner = exKey) ∧
    ([exPod1, exPod2].map (fun d => d.serviceID)).Nodup ∧
    (∀ d ∈ [exPod1, exPod2], (exLocate d.address).isSome = true) ∧
    wellPaired exCatalog ∧
    ((∀ e ∈ (reconcilePass exLocate (fun _ => false) exKey
          (some [exPod1, exPod2]) exCatalog).catalog.instances,
        e.inst.owner = exKey →
        (e.inst.kind = InstanceKind.primary →
          e.inst.serviceID ∈ [exPod1, exPod2].map (fun d => d.serviceID)) ∧
        (e.inst.kind = InstanceKind.sidecarProxy →
          ∃ sid ∈ [exPod1, exPod2].map (fun d => d.serviceID),
            e.inst.serviceID = sid ++ sidecarSuffix)) ∧
      (∀ d ∈ [exPod1, exPod2],
        (∃ e ∈ (reconcilePass exLocate (fun _ => false) exKey
            (some [exPod1, exPod2]) exCatalog).catalog.instances,
          e.inst.kind = InstanceKind.primary ∧ e.inst.owner = exKey ∧
          e.inst.serviceID = d.serviceID) ∧
        (∃ e ∈ (reconcilePass exLocate (fun _ => false) exKey
            (some [exPod1, exPod2]) exCatalog).catalog.instances,
          e.inst.kind = InstanceKind.sidecarProxy ∧ e.inst.owner = exKey ∧
          e.inst.serviceID = d.serviceID ++ sidecarSuffix))) :=
  ⟨by decide, by decide, by decide, by unfold wellPaired; decide,
   c1_convergence exLocate exKey [exPod1, exPod2] exCatalog
     (by decide) (by decide) (by decide) (by unfold wellPaired; decide)⟩

/-- Claim C2: idempotence — reconciling the same key twice in sequence with
no intervening change to the DesiredSet or the catalog yields an empty
second diff: the second pass issues no register or deregister operation. -/
theorem c2_idempotence :
    ∀ (locate : String → Option AgentId) (key : OwnerKey) (D : List ServiceInstance)
      (c : Catalog),
      (∀ d ∈ D, d.kind = InstanceKind.primary ∧ d.owner = key) →
      (D.map (fun d => d.serviceID)).Nodup →
      (∀ d ∈ D, (locate d.address).isSome = true) →
      (reconcilePass locate (fun _ => false) key (some D)
        (reconcilePass locate (fun _ => false) key (some D) c).catalog).ops = [] := by
  intro locate key D c hD hnd hloc
  have hD1 : ∀ x ∈ D, x.kind = InstanceKind.primary := fun x hx => (hD x hx).1
  have hcat : (reconcilePass locate (fun _ => false) key (some D) c).catalog =
      runOps c (reconcileOps locate key D c) := by
    simp [reconcilePass, execOps_noFail]
  have hopsEq : ∀ cc : Catalog,
      (reconcilePass locate (fun _ => false) key (some D) cc).ops =
        reconcileOps locate key D cc := fun cc => rfl
  rw [hopsEq, hcat]
  have hstaleNil : staleOps key (D.map (fun d => d.serviceID))
      (runOps c (reconcileOps locate key D c)) = [] := by
    have hf : (runOps c (reconcileOps locate key D c)).instances.filter
        (fun e => decide (e.inst.kind = InstanceKind.primary) &&
          decide (e.inst.owner = key) &&
          decide (e.inst.serviceID ∉ D.map (fun d => d.serviceID))) = [] := by
      apply List.filter_eq_nil_iff.mpr
      intro e he habs
      simp only [Bool.and_eq_true, decide_eq_true_eq] at habs
      exact habs.2 (final_primary_ids hD1 hnd e he habs.1.2 habs.1.1)
    unfold staleOps
    rw [hf]
    rfl
  have hregNil : registerPairs locate key D
      (runOps c (reconcileOps locate key D c)) = [] := by
    apply List.filterMap_eq_nil_iff.mpr
    intro d hd
    obtain ⟨a, hl⟩ := Option.isSome_iff_exists.mp (hloc d hd)
    obtain ⟨e, he, hea, hek, heo, heid, heu⟩ :=
      final_has_unchanged_primary hD hnd d hd a hl
    have ho : observedUnchanged key (runOps c (reconcileOps locate key D c)) a d = true :=
      observedUnchanged_iff.mpr ⟨e, he, hea, hek, heo, heid, heu⟩
    rw [hl]
    simp [ho]
  have hro : registerOps locate key D (runOps c (reconcileOps locate key D c)) = [] := by
    unfold registerOps
    rw [hregNil]
    rfl
  calc reconcileOps locate key D (runOps c (reconcileOps locate key D c))
      = staleOps key (D.map (fun d => d.serviceID))
          (runOps c (reconcileOps locate key D c)) ++
        registerOps locate key D (runOps c (reconcileOps locate key D c)) := rfl
    _ = [] := by rw [hstaleNil, hro]; rfl

/-- Witness for C2: the second pass over the two-pod example issues no
operations. -/
theorem c2_idempotence_witness :
    (∀ d ∈ [exPod1, exPod2], d.kind = InstanceKind.primary ∧ d.owner = exKey) ∧
    ([exPod1, exPod2].map (fun d => d.serviceID)).Nodup ∧
    (∀ d ∈ [exPod1, exPod2], (exLocate d.address).isSome = true) ∧
    (reconcilePass exLocate (fun _ => false) exKey (some [exPod1, exPod2])
      (reconcilePass exLocate (fun _ => false) exKey (some [exPod1, exPod2])
        exCatalog).catalog).ops = [] :=
  ⟨by decide, by decide, by decide,
   c2_idempotence exLocate exKey [exPod1, exPod2] exCatalog
     (by decide) (by decide) (by decide)⟩

/-- Claim C6: frame — a desired instance that is present in the ObservedSet
at its located agent with identical address, port, tags and metadata
generates no operation: no register or deregister of the pass targets its
ServiceID, and its catalog entry is still present after the pass, whatever
agents fail. -/
theorem c6_unchanged_untouched :
    ∀ (locate : String → Option AgentId) (failing : AgentId → Bool) (key : OwnerKey)
      (D : List ServiceInstance) (c : Catalog) (d : ServiceInstance) (e : CatalogEntry),
      (D.map (fun x => x.serviceID)).Nodup →
      d ∈ D →
      e ∈ c.instances →
      e.inst.kind = InstanceKind.primary →
      e.inst.owner = key →
      e.inst.serviceID = d.serviceID →
      instanceUnchanged d e.inst = true →
      locate d.address = some e.agent →
      (∀ op ∈ reconcileOps locate key D c, opTargetID op ≠ d.serviceID) ∧
      e ∈ (reconcilePass locate failing key (some D) c).catalog.instances := by
  intro locate failing key D c d e hnd hd hec hek heo heid heu hl
  have ho : observedUnchanged key c e.agent d = true :=
    observedUnchanged_iff.mpr ⟨e, hec, rfl, hek, heo, heid, heu⟩
  have hnone := registerPairs_none hl ho hnd
  constructor
  · intro op hop
    rcases List.mem_append.mp hop with h | h
    · obtain ⟨e', _, _, _, hid', rfl⟩ := mem_staleOps_iff.mp h
      intro habs
      simp only [opTargetID] at habs
      rw [habs] at hid'
      exact hid' (List.mem_map_of_mem _ hd)
    · obtain ⟨p, hp, rfl⟩ := List.mem_map.mp h
      intro habs
      simp only [opTargetID] at habs
      rcases hnone p hp with hne | hndD
      · exact hne habs
      · exact hndD hd
  · have hcat : (reconcilePass locate failing key (some D) c).catalog =
        runOps c ((reconcileOps locate key D c).filter
          (fun op => !failing (agentOf op))) := by
      simp [reconcilePass, execOps_eq]
    rw [hcat]
    apply mem_runOps_of_unhit hec
    intro op hop
    have hop' := (List.mem_filter.mp hop).1
    rcases List.mem_append.mp hop' with h | h
    · obtain ⟨e', _, _, _, hid', rfl⟩ := mem_staleOps_iff.mp h
      rw [Bool.eq_false_iff]
      intro habs
      rcases hits_deregister_iff.mp habs with ⟨_, ⟨_, hid⟩ | ⟨hks, _⟩⟩
      · rw [← hid, heid] at hid'
        exact hid' (List.mem_map_of_mem _ hd)
      · rw [hek] at hks
        cases hks
    · obtain ⟨p, hp, rfl⟩ := List.mem_map.mp h
      rw [Bool.eq_false_iff]
      intro habs
      rcases hits_register_iff.mp habs with ⟨_, hid⟩ | ⟨hks, _⟩
      · rcases hnone p hp with hne | hndD
        · exact hne (hid.symm.trans heid)
        · exact hndD hd
      · rw [hek] at hks
        cases hks

/-- Witness for C6: pod1's entry on agentA matches the desired pod1
exactly; the pass targets only the stale pod9 and leaves pod1's entry in
place. -/
theorem c6_unchanged_untouched_witness :
    ([exPod1].map (fun x => x.serviceID)).Nodup ∧
    exPod1 ∈ [exPod1] ∧
    (⟨"agentA", exPod1⟩ : CatalogEntry) ∈ exCatalog.instances ∧
    exPod1.kind = InstanceKind.primary ∧
    exPod1.owner = exKey ∧
    exPod1.serviceID = exPod1.serviceID ∧
    instanceUnchanged exPod1 exPod1 = true ∧
    exLocate exPod1.address = some "agentA" ∧
    ((∀ op ∈ reconcileOps exLocate exKey [exPod1] exCatalog,
        opTargetID op ≠ exPod1.serviceID) ∧
      (⟨"agentA", exPod1⟩ : CatalogEntry) ∈
        (reconcilePass exLocate (fun _ => false) exKey
          (some [exPod1]) exCatalog).catalog.instances) :=
  ⟨by decide, by decide, by decide, by decide, by decide, rfl, by decide, by decide,
   c6_unchanged_untouched exLocate (fun _ => false) exKey [exPod1] exCatalog exPod1
     ⟨"agentA", exPod1⟩ (by decide) (by decide) (by decide) (by decide) (by decide)
     (by decide) (by decide) (by decide)⟩

/-- Witness for C10 at a concrete Cluster whose finalizer list does not
contain the added name. -/
theorem c10_finalizers_witness :
    "f-new" ∉ ["f1", "f2"] ∧
    ((Cluster.addFinalizer ⟨⟨"cluster", "default", ["f1", "f2"]⟩, ⟨⟨false⟩⟩, ⟨[], none⟩⟩
        "f-new").removeFinalizer "f-new").objectMeta.finalizers = ["f1", "f2"] :=
  ⟨by decide,
   (c10_finalizers ⟨⟨"cluster", "default", ["f1", "f2"]⟩, ⟨⟨false⟩⟩, ⟨[], none⟩⟩
     "f-new").2.2.2.1 (by decide)⟩

end ConsulK8s
